import Mathlib

/-!
Shallow embedding of `src/packages/installer/src/installer.ts` (the Blitz
installer orchestrator).  Hooks and executors are asynchronous functions in
the source; here they are modelled as pure functions returning
`Except E Unit` (`Except.error` models a rejected promise / thrown error).
Every observable action of `run` (log output, confirmation prompt, hook and
executor invocations) is recorded as an `Event` in an output trace, and the
installer state is threaded explicitly so that mutation claims are statable:
each method returns the post-state of `this` next to its trace and result.
`await x; rest` is embedded as a match on the result of `x`: when `x` throws,
`rest` does not run and the error is returned (an uncaught rejection aborts
the surrounding method body).  The type of the opaque CLI argument bag is a
parameter `A`; the type of thrown errors is a parameter `E`.
-/

/-- Source type `stepId: string | number`. -/
inductive StepId where
  | str : String → StepId
  | num : Int → StepId
deriving DecidableEq, Repr

/-- Modelled from the spec: the concrete executor step types
(`FileTransformExecutor`, `AddDependencyExecutor`, `NewFileExecutor`) live in
`src/packages/installer/src/executors/*`, which is not among the sources
under study.  Per the spec a step carries a `stepId` (passed to the per-step
hooks) and a kind discriminant that is one of the three strings
`file-transform`, `add-dependency`, `new-file`; a step whose discriminant is
none of those matches no executor predicate (a dispatch miss). -/
structure Step where
  stepId : StepId
  kind : String
deriving DecidableEq, Repr

/-- The three executor kinds of the source union type `Executor`. -/
inductive ExecKind where
  | fileTransform
  | addDependency
  | newFile
deriving DecidableEq, Repr

/-- Modelled from the spec: the type predicate exported by
`executors/file-transform-executor` tests the step kind discriminant. -/
def isFileTransformExecutor (s : Step) : Bool :=
  s.kind == "file-transform"

/-- Modelled from the spec: the type predicate exported by
`executors/add-dependency-executor` tests the step kind discriminant. -/
def isAddDependencyExecutor (s : Step) : Bool :=
  s.kind == "add-dependency"

/-- Modelled from the spec: the type predicate exported by
`executors/new-file-executor` tests the step kind discriminant. -/
def isNewFileExecutor (s : Step) : Bool :=
  s.kind == "new-file"

/-- One observable action of the orchestrator.  Log lines carry the exact
string printed; invocation events carry the arguments the collaborator was
invoked with. -/
inductive Event (A E : Type) where
  | logBranded (msg : String)
  | logInfo (msg : String)
  | logNewline
  | waitForConfirmation (msg : String)
  | callValidateArgs (args : A)
  | logError (err : E)
  | callPreInstall
  | callBeforeEach (id : StepId)
  | logStepFrontmatter (s : Step)
  | callExecutor (k : ExecKind) (s : Step) (args : A)
  | callAfterEach (id : StepId)
  | callPostInstall
  | logSuccess (msg : String)
deriving DecidableEq, Repr

/-- Source interface `InstallerOptions`: four required display strings and
five optional asynchronous lifecycle hooks. -/
structure InstallerOptions (A E : Type) where
  packageName : String
  packageDescription : String
  packageOwner : String
  packageRepoLink : String
  validateArgs : Option (A → Except E Unit)
  preInstall : Option (Unit → Except E Unit)
  beforeEach : Option (StepId → Except E Unit)
  afterEach : Option (StepId → Except E Unit)
  postInstall : Option (Unit → Except E Unit)

/-- Source class `Installer`: the two `private readonly` fields set by the
constructor. -/
structure Installer (A E : Type) where
  options : InstallerOptions A E
  steps : List Step

/-- Modelled from the spec: the three module-level executor functions
(`fileTransformExecutor`, `addDependencyExecutor`, `newFileExecutor`), which
are external collaborators with signature `(step, cliArgs) -> Promise of
void`.  They are gathered in an environment record. -/
structure ExecEnv (A E : Type) where
  fileTransformExecutor : Step → A → Except E Unit
  addDependencyExecutor : Step → A → Except E Unit
  newFileExecutor : Step → A → Except E Unit

namespace Installer

variable {A E : Type}

/-- Source `private async validateArgs(cliArgs)`: calls the optional hook
when present, otherwise resolves doing nothing. -/
def validateArgs (i : Installer A E) (cliArgs : A) :
    Installer A E × List (Event A E) × Except E Unit :=
  match i.options.validateArgs with
  | some f => (i, [Event.callValidateArgs cliArgs], f cliArgs)
  | none => (i, [], Except.ok ())

/-- Source `private async preInstall()`. -/
def preInstall (i : Installer A E) :
    Installer A E × List (Event A E) × Except E Unit :=
  match i.options.preInstall with
  | some f => (i, [Event.callPreInstall], f ())
  | none => (i, [], Except.ok ())

/-- Source `private async beforeEach(stepId)`. -/
def beforeEach (i : Installer A E) (stepId : StepId) :
    Installer A E × List (Event A E) × Except E Unit :=
  match i.options.beforeEach with
  | some f => (i, [Event.callBeforeEach stepId], f stepId)
  | none => (i, [], Except.ok ())

/-- Source `private async afterEach(stepId)`. -/
def afterEach (i : Installer A E) (stepId : StepId) :
    Installer A E × List (Event A E) × Except E Unit :=
  match i.options.afterEach with
  | some f => (i, [Event.callAfterEach stepId], f stepId)
  | none => (i, [], Except.ok ())

/-- Source `private async postInstall()`. -/
def postInstall (i : Installer A E) :
    Installer A E × List (Event A E) × Except E Unit :=
  match i.options.postInstall with
  | some f => (i, [Event.callPostInstall], f ())
  | none => (i, [], Except.ok ())

/-- Source `async displayFrontmatter()`: two branded lines, two info lines,
a blank line, then the blocking confirmation prompt.  Logging and the
prompt are external collaborators whose failures are outside the core's
contract; they are pure trace output here. -/
def displayFrontmatter (i : Installer A E) :
    Installer A E × List (Event A E) :=
  (i,
    [Event.logBranded ("Welcome to the installer for " ++ i.options.packageName),
     Event.logBranded i.options.packageDescription,
     Event.logInfo ("This package is authored and supported by " ++ i.options.packageOwner),
     Event.logInfo ("For additional documentation and support please visit " ++ i.options.packageRepoLink),
     Event.logNewline,
     Event.waitForConfirmation "Press enter to begin installation"])

end Installer

/-- Source lines 113-120 of `run`: the if / else-if dispatch that tests the
step against the three predicates in fixed order and invokes the matching
executor with `(step, cliArgs)`; when nothing matches, nothing runs. -/
def dispatchStep {A E : Type} (env : ExecEnv A E) (cliArgs : A)
    (i : Installer A E) (step : Step) :
    Installer A E × List (Event A E) × Except E Unit :=
  if isFileTransformExecutor step then
    (i, [Event.callExecutor ExecKind.fileTransform step cliArgs],
     env.fileTransformExecutor step cliArgs)
  else if isAddDependencyExecutor step then
    (i, [Event.callExecutor ExecKind.addDependency step cliArgs],
     env.addDependencyExecutor step cliArgs)
  else if isNewFileExecutor step then
    (i, [Event.callExecutor ExecKind.newFile step cliArgs],
     env.newFileExecutor step cliArgs)
  else
    (i, [], Except.ok ())

/-- The success message of source line 127 (text verbatim, typo included). -/
def successMsg {A E : Type} (i : Installer A E) : String :=
  "Installer complete, " ++ i.options.packageName ++
    " is now be configured for your app!"

namespace Installer

variable {A E : Type}

/-- Source lines 106-123: the body of `for (const step of this.steps)` -
blank line, `beforeEach`, step frontmatter, dispatch, `afterEach`; an
uncaught rejection anywhere aborts the rest of the body. -/
def runStep (env : ExecEnv A E) (cliArgs : A) (i : Installer A E)
    (step : Step) : Installer A E × List (Event A E) × Except E Unit :=
  match i.beforeEach step.stepId with
  | (i1, t1, Except.error e) => (i1, Event.logNewline :: t1, Except.error e)
  | (i1, t1, Except.ok _) =>
    match dispatchStep env cliArgs i1 step with
    | (i2, t2, Except.error e) =>
      (i2, Event.logNewline :: (t1 ++ Event.logStepFrontmatter step :: t2),
       Except.error e)
    | (i2, t2, Except.ok _) =>
      match i2.afterEach step.stepId with
      | (i3, t3, r) =>
        (i3,
         Event.logNewline :: (t1 ++ Event.logStepFrontmatter step :: (t2 ++ t3)),
         r)

/-- The `for` loop of `run` over the steps list: each iteration runs to
completion before the next begins, and an uncaught rejection aborts the
remaining iterations. -/
def runSteps (env : ExecEnv A E) (cliArgs : A) :
    Installer A E → List Step → Installer A E × List (Event A E) × Except E Unit
  | i, [] => (i, [], Except.ok ())
  | i, step :: rest =>
    match runStep env cliArgs i step with
    | (i1, t1, Except.error e) => (i1, t1, Except.error e)
    | (i1, t1, Except.ok _) =>
      match runSteps env cliArgs i1 rest with
      | (i2, t2, r) => (i2, t1 ++ t2, r)

/-- Source lines 105-127 of `run`, after the validation `try`/`catch`:
`preInstall`, the step loop, `postInstall`, then the blank line and the
success message. -/
def runMain (env : ExecEnv A E) (i : Installer A E) (cliArgs : A) :
    Installer A E × List (Event A E) × Except E Unit :=
  match i.preInstall with
  | (i1, t1, Except.error e) => (i1, t1, Except.error e)
  | (i1, t1, Except.ok _) =>
    match runSteps env cliArgs i1 i1.steps with
    | (i2, t2, Except.error e) => (i2, t1 ++ t2, Except.error e)
    | (i2, t2, Except.ok _) =>
      match i2.postInstall with
      | (i3, t3, Except.error e) => (i3, t1 ++ t2 ++ t3, Except.error e)
      | (i3, t3, Except.ok _) =>
        (i3,
         t1 ++ t2 ++ t3 ++ [Event.logNewline, Event.logSuccess (successMsg i3)],
         Except.ok ())

/-- Source `async run(cliArgs)`: frontmatter and confirmation, then
`validateArgs` inside `try`/`catch` (a rejection is logged via `log.error`
and `run` returns normally), then the uncaught remainder `runMain`. -/
def run (env : ExecEnv A E) (i : Installer A E) (cliArgs : A) :
    Installer A E × List (Event A E) × Except E Unit :=
  match i.displayFrontmatter with
  | (i0, t0) =>
    match i0.validateArgs cliArgs with
    | (i1, t1, Except.error err) =>
      (i1, t0 ++ t1 ++ [Event.logError err], Except.ok ())
    | (i1, t1, Except.ok _) =>
      match runMain env i1 cliArgs with
      | (i2, t2, r2) => (i2, t0 ++ t1 ++ t2, r2)

end Installer

/-- Spec-side definition (written from the spec's words, to be compared with
the dispatch code): the first of the three type predicates, tested in the
fixed order file-transform, add-dependency, new-file, that matches the step;
`none` when no predicate matches. -/
def specFirstMatch (s : Step) : Option ExecKind :=
  if isFileTransformExecutor s then some ExecKind.fileTransform
  else if isAddDependencyExecutor s then some ExecKind.addDependency
  else if isNewFileExecutor s then some ExecKind.newFile
  else none

/-- Invocation events produced by the `beforeEach` wrapper: one when the
hook is present, none when it is absent. -/
def beforeEvts {A E : Type} (i : Installer A E) (id : StepId) : List (Event A E) :=
  match i.options.beforeEach with
  | some _ => [Event.callBeforeEach id]
  | none => []

/-- Invocation events produced by the `afterEach` wrapper. -/
def afterEvts {A E : Type} (i : Installer A E) (id : StepId) : List (Event A E) :=
  match i.options.afterEach with
  | some _ => [Event.callAfterEach id]
  | none => []

/-- Invocation events produced by the `validateArgs` wrapper. -/
def validateEvts {A E : Type} (i : Installer A E) (cliArgs : A) : List (Event A E) :=
  match i.options.validateArgs with
  | some _ => [Event.callValidateArgs cliArgs]
  | none => []

/-- Invocation events produced by the `preInstall` wrapper. -/
def preEvts {A E : Type} (i : Installer A E) : List (Event A E) :=
  match i.options.preInstall with
  | some _ => [Event.callPreInstall]
  | none => []

/-- Invocation events produced by the `postInstall` wrapper. -/
def postEvts {A E : Type} (i : Installer A E) : List (Event A E) :=
  match i.options.postInstall with
  | some _ => [Event.callPostInstall]
  | none => []

/-- Executor-invocation events of the dispatch for one step: exactly the
first matching executor, invoked with the step and the CLI args. -/
def execEvts {A E : Type} (cliArgs : A) (s : Step) : List (Event A E) :=
  match specFirstMatch s with
  | some k => [Event.callExecutor k s cliArgs]
  | none => []

/-- The full trace one successful loop iteration contributes for a step. -/
def stepOkTrace {A E : Type} (i : Installer A E) (cliArgs : A) (s : Step) :
    List (Event A E) :=
  [Event.logNewline] ++ beforeEvts i s.stepId ++ [Event.logStepFrontmatter s] ++
    execEvts cliArgs s ++ afterEvts i s.stepId

/-- An optional hook that never throws (absent, or returning success on
every input). -/
def hookOk {α E : Type} (o : Option (α → Except E Unit)) : Prop :=
  ∀ f x, o = some f → f x = Except.ok ()

/-- An executor environment in which no executor ever throws. -/
def envOk {A E : Type} (env : ExecEnv A E) : Prop :=
  (∀ s a, env.fileTransformExecutor s a = Except.ok ()) ∧
  (∀ s a, env.addDependencyExecutor s a = Except.ok ()) ∧
  (∀ s a, env.newFileExecutor s a = Except.ok ())

/-- Recognizes the event of `log.error` being invoked. -/
def isLogErrorEv {A E : Type} : Event A E → Bool
  | Event.logError _ => true
  | _ => false

/-- Recognizes an invocation of `preInstall`, `beforeEach`, `afterEach`,
an executor, or `postInstall` (everything the validation catch must keep
from ever running). -/
def isLifecycleCallEv {A E : Type} : Event A E → Bool
  | Event.callPreInstall => true
  | Event.callBeforeEach _ => true
  | Event.callExecutor _ _ _ => true
  | Event.callAfterEach _ => true
  | Event.callPostInstall => true
  | _ => false

/-- Recognizes a `beforeEach` or `afterEach` hook invocation. -/
def isHookPairEvent {A E : Type} : Event A E → Bool
  | Event.callBeforeEach _ => true
  | Event.callAfterEach _ => true
  | _ => false


/-- A sample executor environment for concrete runs: every executor succeeds. -/
def env0 : ExecEnv Nat Nat :=
  ⟨fun _ _ => Except.ok (), fun _ _ => Except.ok (), fun _ _ => Except.ok ()⟩

/-- A sample environment whose file-transform executor rejects with error 7. -/
def envFail : ExecEnv Nat Nat :=
  ⟨fun _ _ => Except.error 7, fun _ _ => Except.ok (), fun _ _ => Except.ok ()⟩

/-- A sample file-transform step. -/
def stepFT : Step := ⟨StepId.num 1, "file-transform"⟩

/-- A sample new-file step. -/
def stepNF : Step := ⟨StepId.num 2, "new-file"⟩

/-- A sample step whose kind matches none of the three predicates. -/
def stepMiss : Step := ⟨StepId.num 3, "mystery"⟩

/-- Sample options with every lifecycle hook present and succeeding. -/
def optsAll : InstallerOptions Nat Nat :=
  ⟨"pkg", "desc", "owner", "link",
   some (fun _ => Except.ok ()), some (fun _ => Except.ok ()),
   some (fun _ => Except.ok ()), some (fun _ => Except.ok ()),
   some (fun _ => Except.ok ())⟩

/-- Sample options whose validateArgs hook rejects with error 5. -/
def optsValFail : InstallerOptions Nat Nat :=
  ⟨"pkg", "desc", "owner", "link",
   some (fun _ => Except.error 5), some (fun _ => Except.ok ()),
   some (fun _ => Except.ok ()), some (fun _ => Except.ok ()),
   some (fun _ => Except.ok ())⟩

/-- Sample options with no optional hook present. -/
def optsNone : InstallerOptions Nat Nat :=
  ⟨"pkg", "desc", "owner", "link", none, none, none, none, none⟩

/-- A sample installer with all hooks and two matching steps. -/
def instPair : Installer Nat Nat := ⟨optsAll, [stepFT, stepNF]⟩

/-- A sample installer whose validateArgs hook rejects. -/
def instValFail : Installer Nat Nat := ⟨optsValFail, [stepFT, stepNF]⟩

/-- A sample installer with no optional hooks. -/
def instNone : Installer Nat Nat := ⟨optsNone, [stepFT]⟩

/-- A sample installer with an empty steps list. -/
def instEmpty : Installer Nat Nat := ⟨optsAll, []⟩

/-- A sample installer whose first step is a dispatch miss. -/
def instMiss : Installer Nat Nat := ⟨optsAll, [stepMiss, stepNF]⟩

/-- Sample options whose beforeEach hook rejects with error 9. -/
def optsBeforeFail : InstallerOptions Nat Nat :=
  ⟨"pkg", "desc", "owner", "link",
   some (fun _ => Except.ok ()), some (fun _ => Except.ok ()),
   some (fun _ => Except.error 9), some (fun _ => Except.ok ()),
   some (fun _ => Except.ok ())⟩

/-- A sample installer whose beforeEach hook rejects. -/
def instBeforeFail : Installer Nat Nat := ⟨optsBeforeFail, [stepFT, stepNF]⟩

section StateLemmas

variable {A E : Type}

theorem validateArgs_state (i : Installer A E) (a : A) :
    (i.validateArgs a).1 = i := by
  unfold Installer.validateArgs; cases i.options.validateArgs <;> rfl

theorem preInstall_state (i : Installer A E) : i.preInstall.1 = i := by
  unfold Installer.preInstall; cases i.options.preInstall <;> rfl

theorem beforeEach_state (i : Installer A E) (id : StepId) :
    (i.beforeEach id).1 = i := by
  unfold Installer.beforeEach; cases i.options.beforeEach <;> rfl

theorem afterEach_state (i : Installer A E) (id : StepId) :
    (i.afterEach id).1 = i := by
  unfold Installer.afterEach; cases i.options.afterEach <;> rfl

theorem postInstall_state (i : Installer A E) : i.postInstall.1 = i := by
  unfold Installer.postInstall; cases i.options.postInstall <;> rfl

theorem dispatchStep_state (env : ExecEnv A E) (a : A) (i : Installer A E)
    (s : Step) : (dispatchStep env a i s).1 = i := by
  unfold dispatchStep
  split <;> try rfl
  split <;> try rfl
  split <;> rfl

theorem dispatchStep_trace (env : ExecEnv A E) (a : A) (i : Installer A E)
    (s : Step) : (dispatchStep env a i s).2.1 = execEvts a s := by
  unfold dispatchStep execEvts specFirstMatch
  split <;> try rfl
  split <;> try rfl
  split <;> rfl

theorem runStep_state (env : ExecEnv A E) (a : A) (i : Installer A E)
    (s : Step) : (Installer.runStep env a i s).1 = i := by
  unfold Installer.runStep
  split
  case _ i1 t1 e heq =>
    have h := beforeEach_state i s.stepId
    rw [heq] at h; exact h
  case _ i1 t1 u heq =>
    have h1 : i1 = i := by
      have h := beforeEach_state i s.stepId
      rw [heq] at h; exact h
    split
    case _ i2 t2 e heq2 =>
      have h2 := dispatchStep_state env a i1 s
      rw [heq2] at h2; exact h2.trans h1
    case _ i2 t2 u2 heq2 =>
      have h2 : i2 = i1 := by
        have h := dispatchStep_state env a i1 s
        rw [heq2] at h; exact h
      split
      case _ i3 t3 r heq3 =>
        have h3 := afterEach_state i2 s.stepId
        rw [heq3] at h3
        exact h3.trans (h2.trans h1)

theorem runSteps_state (env : ExecEnv A E) (a : A) :
    ∀ (l : List Step) (i : Installer A E),
      (Installer.runSteps env a i l).1 = i := by
  intro l
  induction l with
  | nil => intro i; rfl
  | cons s rest ih =>
    intro i
    unfold Installer.runSteps
    split
    case _ i1 t1 e heq =>
      have h := runStep_state env a i s
      rw [heq] at h; exact h
    case _ i1 t1 u heq =>
      have h1 : i1 = i := by
        have h := runStep_state env a i s
        rw [heq] at h; exact h
      split
      case _ i2 t2 r heq2 =>
        have h2 := ih i1
        rw [heq2] at h2
        exact h2.trans h1

theorem runMain_state (env : ExecEnv A E) (i : Installer A E) (a : A) :
    (Installer.runMain env i a).1 = i := by
  unfold Installer.runMain
  split
  case _ i1 t1 e heq =>
    have h := preInstall_state i
    rw [heq] at h; exact h
  case _ i1 t1 u heq =>
    have h1 : i1 = i := by
      have h := preInstall_state i
      rw [heq] at h; exact h
    split
    case _ i2 t2 e heq2 =>
      have h2 := runSteps_state env a i1.steps i1
      rw [heq2] at h2; exact h2.trans h1
    case _ i2 t2 u2 heq2 =>
      have h2 : i2 = i1 := by
        have h := runSteps_state env a i1.steps i1
        rw [heq2] at h; exact h
      split
      case _ i3 t3 e heq3 =>
        have h3 := postInstall_state i2
        rw [heq3] at h3; exact h3.trans (h2.trans h1)
      case _ i3 t3 u3 heq3 =>
        have h3 := postInstall_state i2
        rw [heq3] at h3; exact h3.trans (h2.trans h1)

theorem run_state (env : ExecEnv A E) (i : Installer A E) (a : A) :
    (Installer.run env i a).1 = i := by
  unfold Installer.run
  split
  case _ i0 t0 heq0 =>
    have h0 : i0 = i := by
      have h := congrArg Prod.fst heq0
      simpa [Installer.displayFrontmatter] using h.symm
    split
    case _ i1 t1 e heq =>
      have h := validateArgs_state i0 a
      rw [heq] at h; exact h.trans h0
    case _ i1 t1 u heq =>
      have h1 : i1 = i0 := by
        have h := validateArgs_state i0 a
        rw [heq] at h; exact h
      split
      case _ i2 t2 r2 heq2 =>
        have h2 := runMain_state env i1 a
        rw [heq2] at h2
        exact h2.trans (h1.trans h0)

end StateLemmas

section OkLemmas

variable {A E : Type}

theorem validateArgs_ok (i : Installer A E) (a : A)
    (hv : hookOk i.options.validateArgs) :
    i.validateArgs a = (i, validateEvts i a, Except.ok ()) := by
  unfold Installer.validateArgs validateEvts
  cases h : i.options.validateArgs with
  | none => rfl
  | some f => simp [hv f a h]

theorem preInstall_ok (i : Installer A E) (hp : hookOk i.options.preInstall) :
    i.preInstall = (i, preEvts i, Except.ok ()) := by
  unfold Installer.preInstall preEvts
  cases h : i.options.preInstall with
  | none => rfl
  | some f => simp [hp f () h]

theorem beforeEach_ok (i : Installer A E) (id : StepId)
    (hb : hookOk i.options.beforeEach) :
    i.beforeEach id = (i, beforeEvts i id, Except.ok ()) := by
  unfold Installer.beforeEach beforeEvts
  cases h : i.options.beforeEach with
  | none => rfl
  | some f => simp [hb f id h]

theorem afterEach_ok (i : Installer A E) (id : StepId)
    (ha : hookOk i.options.afterEach) :
    i.afterEach id = (i, afterEvts i id, Except.ok ()) := by
  unfold Installer.afterEach afterEvts
  cases h : i.options.afterEach with
  | none => rfl
  | some f => simp [ha f id h]

theorem postInstall_ok (i : Installer A E) (hq : hookOk i.options.postInstall) :
    i.postInstall = (i, postEvts i, Except.ok ()) := by
  unfold Installer.postInstall postEvts
  cases h : i.options.postInstall with
  | none => rfl
  | some f => simp [hq f () h]

theorem dispatchStep_ok (env : ExecEnv A E) (a : A) (i : Installer A E)
    (s : Step) (he : envOk env) :
    dispatchStep env a i s = (i, execEvts a s, Except.ok ()) := by
  obtain ⟨h1, h2, h3⟩ := he
  unfold dispatchStep execEvts specFirstMatch
  by_cases c1 : isFileTransformExecutor s = true <;>
    by_cases c2 : isAddDependencyExecutor s = true <;>
      by_cases c3 : isNewFileExecutor s = true <;>
        simp [c1, c2, c3, h1, h2, h3]

theorem runStep_ok (env : ExecEnv A E) (a : A) (i : Installer A E) (s : Step)
    (hb : hookOk i.options.beforeEach) (ha : hookOk i.options.afterEach)
    (he : envOk env) :
    Installer.runStep env a i s = (i, stepOkTrace i a s, Except.ok ()) := by
  unfold Installer.runStep
  simp only [beforeEach_ok i s.stepId hb, dispatchStep_ok env a i s he,
    afterEach_ok i s.stepId ha]
  simp [stepOkTrace]

theorem runSteps_ok (env : ExecEnv A E) (a : A) (i : Installer A E)
    (hb : hookOk i.options.beforeEach) (ha : hookOk i.options.afterEach)
    (he : envOk env) :
    ∀ l : List Step,
      Installer.runSteps env a i l =
        (i, (l.map (stepOkTrace i a)).flatten, Except.ok ()) := by
  intro l
  induction l with
  | nil => simp [Installer.runSteps]
  | cons s rest ih =>
    unfold Installer.runSteps
    simp only [runStep_ok env a i s hb ha he, ih]
    simp

theorem runMain_ok (env : ExecEnv A E) (i : Installer A E) (a : A)
    (hp : hookOk i.options.preInstall) (hq : hookOk i.options.postInstall)
    (hb : hookOk i.options.beforeEach) (ha : hookOk i.options.afterEach)
    (he : envOk env) :
    Installer.runMain env i a =
      (i, preEvts i ++ (i.steps.map (stepOkTrace i a)).flatten ++ postEvts i ++
        [Event.logNewline, Event.logSuccess (successMsg i)],
       Except.ok ()) := by
  unfold Installer.runMain
  simp only [preInstall_ok i hp, runSteps_ok env a i hb ha he i.steps,
    postInstall_ok i hq]

theorem run_allOk (env : ExecEnv A E) (i : Installer A E) (a : A)
    (hv : hookOk i.options.validateArgs)
    (hp : hookOk i.options.preInstall) (hq : hookOk i.options.postInstall)
    (hb : hookOk i.options.beforeEach) (ha : hookOk i.options.afterEach)
    (he : envOk env) :
    Installer.run env i a =
      (i, (Installer.displayFrontmatter i).2 ++ validateEvts i a ++ preEvts i ++
        (i.steps.map (stepOkTrace i a)).flatten ++ postEvts i ++
        [Event.logNewline, Event.logSuccess (successMsg i)],
       Except.ok ()) := by
  unfold Installer.run
  simp only [Installer.displayFrontmatter, validateArgs_ok i a hv,
    runMain_ok env i a hp hq hb ha he]
  simp

end OkLemmas

section ErrorLemmas

variable {A E : Type}

theorem validateArgs_error (i : Installer A E) (a : A) (f : A → Except E Unit)
    (e : E) (hf : i.options.validateArgs = some f) (he : f a = Except.error e) :
    i.validateArgs a = (i, [Event.callValidateArgs a], Except.error e) := by
  unfold Installer.validateArgs
  rw [hf]; simp [he]

theorem run_validate_error (env : ExecEnv A E) (i : Installer A E) (a : A)
    (f : A → Except E Unit) (e : E)
    (hf : i.options.validateArgs = some f) (he : f a = Except.error e) :
    Installer.run env i a =
      (i, (Installer.displayFrontmatter i).2 ++
        [Event.callValidateArgs a, Event.logError e],
       Except.ok ()) := by
  unfold Installer.run
  simp only [Installer.displayFrontmatter, validateArgs_error i a f e hf he]
  simp

theorem preInstall_error (i : Installer A E) (f : Unit → Except E Unit) (e : E)
    (hf : i.options.preInstall = some f) (he : f () = Except.error e) :
    i.preInstall = (i, [Event.callPreInstall], Except.error e) := by
  unfold Installer.preInstall
  rw [hf]; simp [he]

theorem postInstall_error (i : Installer A E) (f : Unit → Except E Unit) (e : E)
    (hf : i.options.postInstall = some f) (he : f () = Except.error e) :
    i.postInstall = (i, [Event.callPostInstall], Except.error e) := by
  unfold Installer.postInstall
  rw [hf]; simp [he]

theorem run_preInstall_error (env : ExecEnv A E) (i : Installer A E) (a : A)
    (f : Unit → Except E Unit) (e : E)
    (hv : hookOk i.options.validateArgs)
    (hf : i.options.preInstall = some f) (he : f () = Except.error e) :
    Installer.run env i a =
      (i, (Installer.displayFrontmatter i).2 ++ validateEvts i a ++
        [Event.callPreInstall],
       Except.error e) := by
  unfold Installer.run Installer.runMain
  simp only [Installer.displayFrontmatter, validateArgs_ok i a hv,
    preInstall_error i f e hf he]

theorem dispatchStep_error (env : ExecEnv A E) (a : A) (i : Installer A E)
    (s : Step) (e : E) (hd : (dispatchStep env a i s).2.2 = Except.error e) :
    dispatchStep env a i s = (i, execEvts a s, Except.error e) := by
  have h : dispatchStep env a i s =
      ((dispatchStep env a i s).1, (dispatchStep env a i s).2.1,
       (dispatchStep env a i s).2.2) := rfl
  rw [dispatchStep_state env a i s, dispatchStep_trace env a i s, hd] at h
  exact h

theorem runStep_dispatch_error (env : ExecEnv A E) (a : A) (i : Installer A E)
    (s : Step) (e : E) (hb : hookOk i.options.beforeEach)
    (hd : (dispatchStep env a i s).2.2 = Except.error e) :
    Installer.runStep env a i s =
      (i, Event.logNewline :: (beforeEvts i s.stepId ++
        Event.logStepFrontmatter s :: execEvts a s),
       Except.error e) := by
  unfold Installer.runStep
  simp only [beforeEach_ok i s.stepId hb, dispatchStep_error env a i s e hd]

theorem runStep_res_ok (env : ExecEnv A E) (a : A) (i : Installer A E)
    (s : Step) (hs : (Installer.runStep env a i s).2.2 = Except.ok ()) :
    Installer.runStep env a i s =
      (i, (Installer.runStep env a i s).2.1, Except.ok ()) := by
  have h : Installer.runStep env a i s =
      ((Installer.runStep env a i s).1, (Installer.runStep env a i s).2.1,
       (Installer.runStep env a i s).2.2) := rfl
  rw [runStep_state env a i s, hs] at h
  exact h

theorem runSteps_append_each_ok (env : ExecEnv A E) (a : A) (i : Installer A E) :
    ∀ (l1 l2 : List Step),
      (∀ s ∈ l1, (Installer.runStep env a i s).2.2 = Except.ok ()) →
      Installer.runSteps env a i (l1 ++ l2) =
        ((Installer.runSteps env a i l2).1,
         (Installer.runSteps env a i l1).2.1 ++ (Installer.runSteps env a i l2).2.1,
         (Installer.runSteps env a i l2).2.2) := by
  intro l1
  induction l1 with
  | nil =>
    intro l2 h
    rfl
  | cons s l1 ih =>
    intro l2 h
    have hS := runStep_res_ok env a i s (h s (by simp))
    set tS := (Installer.runStep env a i s).2.1 with htS
    have hRest : Installer.runSteps env a i (l1 ++ l2) =
        ((Installer.runSteps env a i l2).1,
         (Installer.runSteps env a i l1).2.1 ++ (Installer.runSteps env a i l2).2.1,
         (Installer.runSteps env a i l2).2.2) :=
      ih l2 fun s2 hs2 => h s2 (by simp [hs2])
    show Installer.runSteps env a i (s :: (l1 ++ l2)) = _
    rcases hX : Installer.runSteps env a i l2 with ⟨X1, X2, X3⟩
    rw [hX] at hRest
    simp only [hX]
    unfold Installer.runSteps
    simp only [hS, hRest]
    simp

theorem runSteps_head_error (env : ExecEnv A E) (a : A) (i : Installer A E)
    (s : Step) (rest : List Step) (t : List (Event A E)) (e : E)
    (hs : Installer.runStep env a i s = (i, t, Except.error e)) :
    Installer.runSteps env a i (s :: rest) = (i, t, Except.error e) := by
  unfold Installer.runSteps
  simp only [hs]

end ErrorLemmas

section TraceMembership

variable {A E : Type}

theorem beforeEach_trace (i : Installer A E) (id : StepId) :
    (i.beforeEach id).2.1 = beforeEvts i id := by
  unfold Installer.beforeEach beforeEvts
  cases i.options.beforeEach <;> rfl

theorem afterEach_trace (i : Installer A E) (id : StepId) :
    (i.afterEach id).2.1 = afterEvts i id := by
  unfold Installer.afterEach afterEvts
  cases i.options.afterEach <;> rfl

theorem notMem_beforeEvts (i : Installer A E) (id : StepId) (ev : Event A E)
    (h : ∀ id2, ev ≠ Event.callBeforeEach id2) : ev ∉ beforeEvts i id := by
  unfold beforeEvts
  cases i.options.beforeEach <;> simp [h]

theorem notMem_afterEvts (i : Installer A E) (id : StepId) (ev : Event A E)
    (h : ∀ id2, ev ≠ Event.callAfterEach id2) : ev ∉ afterEvts i id := by
  unfold afterEvts
  cases i.options.afterEach <;> simp [h]

theorem notMem_execEvts (a : A) (s : Step) (ev : Event A E)
    (h : ∀ k s2 a2, ev ≠ Event.callExecutor k s2 a2) : ev ∉ execEvts a s := by
  unfold execEvts
  cases specFirstMatch s <;> simp [h]

theorem runStep_notMem (env : ExecEnv A E) (a : A) (i : Installer A E)
    (s : Step) (ev : Event A E)
    (h1 : ev ≠ Event.logNewline)
    (h2 : ∀ id, ev ≠ Event.callBeforeEach id)
    (h3 : ∀ s2, ev ≠ Event.logStepFrontmatter s2)
    (h4 : ∀ k s2 a2, ev ≠ Event.callExecutor k s2 a2)
    (h5 : ∀ id, ev ≠ Event.callAfterEach id) :
    ev ∉ (Installer.runStep env a i s).2.1 := by
  unfold Installer.runStep
  split
  case _ i1 t1 e heq =>
    have ht1 : t1 = beforeEvts i s.stepId := by
      have h := beforeEach_trace i s.stepId
      rw [heq] at h; exact h
    subst ht1
    simp [h1, notMem_beforeEvts i s.stepId ev h2]
  case _ i1 t1 u heq =>
    have ht1 : t1 = beforeEvts i s.stepId := by
      have h := beforeEach_trace i s.stepId
      rw [heq] at h; exact h
    subst ht1
    split
    case _ i2 t2 e heq2 =>
      have ht2 : t2 = execEvts a s := by
        have h := dispatchStep_trace env a i1 s
        rw [heq2] at h; exact h
      subst ht2
      simp [h1, h3, notMem_beforeEvts i s.stepId ev h2, notMem_execEvts a s ev h4]
    case _ i2 t2 u2 heq2 =>
      have ht2 : t2 = execEvts a s := by
        have h := dispatchStep_trace env a i1 s
        rw [heq2] at h; exact h
      subst ht2
      split
      case _ i3 t3 r heq3 =>
        have ht3 : t3 = afterEvts i2 s.stepId := by
          have h := afterEach_trace i2 s.stepId
          rw [heq3] at h; exact h
        subst ht3
        simp [h1, h3, notMem_beforeEvts i s.stepId ev h2,
          notMem_execEvts a s ev h4, notMem_afterEvts i2 s.stepId ev h5]

theorem runSteps_notMem (env : ExecEnv A E) (a : A) (ev : Event A E)
    (h1 : ev ≠ Event.logNewline)
    (h2 : ∀ id, ev ≠ Event.callBeforeEach id)
    (h3 : ∀ s2, ev ≠ Event.logStepFrontmatter s2)
    (h4 : ∀ k s2 a2, ev ≠ Event.callExecutor k s2 a2)
    (h5 : ∀ id, ev ≠ Event.callAfterEach id) :
    ∀ (l : List Step) (i : Installer A E),
      ev ∉ (Installer.runSteps env a i l).2.1 := by
  intro l
  induction l with
  | nil => intro i; simp [Installer.runSteps]
  | cons s rest ih =>
    intro i
    unfold Installer.runSteps
    split
    case _ i1 t1 e heq =>
      have ht1 : t1 = (Installer.runStep env a i s).2.1 := by
        rw [heq]
      subst ht1
      exact runStep_notMem env a i s ev h1 h2 h3 h4 h5
    case _ i1 t1 u heq =>
      have ht1 : t1 = (Installer.runStep env a i s).2.1 := by
        rw [heq]
      split
      case _ i2 t2 r heq2 =>
        have ht2 : t2 = (Installer.runSteps env a i1 rest).2.1 := by
          rw [heq2]
        subst ht1; subst ht2
        intro hmem
        rcases List.mem_append.mp hmem with hmem1 | hmem2
        case _ => exact runStep_notMem env a i s ev h1 h2 h3 h4 h5 hmem1
        case _ => exact ih i1 hmem2

end TraceMembership

section FilterLemmas

variable {A E : Type}

theorem hookOk_some_ok {α : Type} (g : α → Except E Unit)
    (h : ∀ x, g x = Except.ok ()) : hookOk (some g) :=
  fun f x hf => by cases hf; exact h x

theorem hookOk_none {α : Type} : hookOk (E := E) (none : Option (α → Except E Unit)) :=
  fun f x hf => by cases hf

theorem notMem_validateEvts (i : Installer A E) (a : A) (ev : Event A E)
    (h : ∀ a2, ev ≠ Event.callValidateArgs a2) : ev ∉ validateEvts i a := by
  unfold validateEvts
  cases i.options.validateArgs <;> simp [h]

theorem notMem_preEvts (i : Installer A E) (ev : Event A E)
    (h : ev ≠ Event.callPreInstall) : ev ∉ preEvts i := by
  unfold preEvts
  cases i.options.preInstall <;> simp [h]

theorem filter_hookPair_frontmatter (i : Installer A E) :
    (Installer.displayFrontmatter i).2.filter isHookPairEvent = [] := rfl

theorem filter_hookPair_validateEvts (i : Installer A E) (a : A) :
    (validateEvts i a).filter isHookPairEvent = [] := by
  unfold validateEvts
  cases i.options.validateArgs <;> rfl

theorem filter_hookPair_preEvts (i : Installer A E) :
    (preEvts i).filter isHookPairEvent = [] := by
  unfold preEvts
  cases i.options.preInstall <;> rfl

theorem filter_hookPair_postEvts (i : Installer A E) :
    (postEvts i).filter isHookPairEvent = [] := by
  unfold postEvts
  cases i.options.postInstall <;> rfl

theorem filter_hookPair_execEvts (a : A) (s : Step) :
    ((execEvts a s : List (Event A E))).filter isHookPairEvent = [] := by
  unfold execEvts
  cases specFirstMatch s <;> rfl

theorem filter_hookPair_stepOkTrace (i : Installer A E) (a : A)
    (fB fA : StepId → Except E Unit)
    (hB : i.options.beforeEach = some fB) (hA : i.options.afterEach = some fA)
    (s : Step) :
    (stepOkTrace i a s).filter isHookPairEvent =
      [Event.callBeforeEach s.stepId, Event.callAfterEach s.stepId] := by
  unfold stepOkTrace beforeEvts afterEvts
  rw [hB, hA]
  simp [List.filter_append, filter_hookPair_execEvts a s, isHookPairEvent]

end FilterLemmas

section RunErrorLemmas

variable {A E : Type}

theorem run_postInstall_error (env : ExecEnv A E) (i : Installer A E) (a : A)
    (f : Unit → Except E Unit) (e : E)
    (hv : hookOk i.options.validateArgs) (hp : hookOk i.options.preInstall)
    (hb : hookOk i.options.beforeEach) (ha : hookOk i.options.afterEach)
    (he : envOk env)
    (hf : i.options.postInstall = some f) (hfe : f () = Except.error e) :
    Installer.run env i a =
      (i, (Installer.displayFrontmatter i).2 ++ validateEvts i a ++ preEvts i ++
        (i.steps.map (stepOkTrace i a)).flatten ++ [Event.callPostInstall],
       Except.error e) := by
  unfold Installer.run Installer.runMain
  simp only [Installer.displayFrontmatter, validateArgs_ok i a hv,
    preInstall_ok i hp, runSteps_ok env a i hb ha he i.steps,
    postInstall_error i f e hf hfe]
  simp

theorem run_exec_error (env : ExecEnv A E) (i : Installer A E) (a : A)
    (pre : List Step) (s : Step) (post : List Step) (e : E)
    (hsteps : i.steps = pre ++ s :: post)
    (hv : hookOk i.options.validateArgs) (hp : hookOk i.options.preInstall)
    (hb : hookOk i.options.beforeEach)
    (hPre : ∀ s2 ∈ pre, (Installer.runStep env a i s2).2.2 = Except.ok ())
    (hd : (dispatchStep env a i s).2.2 = Except.error e) :
    Installer.run env i a =
      (i, (Installer.displayFrontmatter i).2 ++ validateEvts i a ++ preEvts i ++
        (Installer.runSteps env a i pre).2.1 ++
        (Event.logNewline :: (beforeEvts i s.stepId ++
          Event.logStepFrontmatter s :: execEvts a s)),
       Except.error e) := by
  have hstep := runStep_dispatch_error env a i s e hb hd
  have hhead := runSteps_head_error env a i s post _ e hstep
  have happ := runSteps_append_each_ok env a i pre (s :: post) hPre
  rw [hhead] at happ
  unfold Installer.run Installer.runMain
  simp only [Installer.displayFrontmatter, validateArgs_ok i a hv,
    preInstall_ok i hp, hsteps, happ]
  simp


theorem dispatchStep_res_ok (env : ExecEnv A E) (a : A) (i : Installer A E)
    (s : Step) (hd : (dispatchStep env a i s).2.2 = Except.ok ()) :
    dispatchStep env a i s = (i, execEvts a s, Except.ok ()) := by
  have h : dispatchStep env a i s =
      ((dispatchStep env a i s).1, (dispatchStep env a i s).2.1,
       (dispatchStep env a i s).2.2) := rfl
  rw [dispatchStep_state env a i s, dispatchStep_trace env a i s, hd] at h
  exact h

theorem runStep_beforeEach_error (env : ExecEnv A E) (a : A)
    (i : Installer A E) (s : Step) (fB : StepId → Except E Unit) (e : E)
    (hB : i.options.beforeEach = some fB)
    (hfB : fB s.stepId = Except.error e) :
    Installer.runStep env a i s =
      (i, [Event.logNewline, Event.callBeforeEach s.stepId], Except.error e) := by
  have hBe : i.beforeEach s.stepId =
      (i, [Event.callBeforeEach s.stepId], Except.error e) := by
    unfold Installer.beforeEach; rw [hB]; simp [hfB]
  unfold Installer.runStep
  simp only [hBe]

theorem runStep_afterEach_error (env : ExecEnv A E) (a : A)
    (i : Installer A E) (s : Step) (fA : StepId → Except E Unit) (e : E)
    (hb : hookOk i.options.beforeEach)
    (hd : (dispatchStep env a i s).2.2 = Except.ok ())
    (hA : i.options.afterEach = some fA)
    (hfA : fA s.stepId = Except.error e) :
    Installer.runStep env a i s =
      (i, Event.logNewline :: (beforeEvts i s.stepId ++
        Event.logStepFrontmatter s ::
          (execEvts a s ++ [Event.callAfterEach s.stepId])),
       Except.error e) := by
  have hAf : i.afterEach s.stepId =
      (i, [Event.callAfterEach s.stepId], Except.error e) := by
    unfold Installer.afterEach; rw [hA]; simp [hfA]
  unfold Installer.runStep
  simp only [beforeEach_ok i s.stepId hb, dispatchStep_res_ok env a i s hd, hAf]

theorem run_beforeEach_error (env : ExecEnv A E) (i : Installer A E) (a : A)
    (pre : List Step) (s : Step) (post : List Step)
    (fB : StepId → Except E Unit) (e : E)
    (hsteps : i.steps = pre ++ s :: post)
    (hv : hookOk i.options.validateArgs) (hp : hookOk i.options.preInstall)
    (hPre : ∀ s2 ∈ pre, (Installer.runStep env a i s2).2.2 = Except.ok ())
    (hB : i.options.beforeEach = some fB)
    (hfB : fB s.stepId = Except.error e) :
    Installer.run env i a =
      (i, (Installer.displayFrontmatter i).2 ++ validateEvts i a ++ preEvts i ++
        (Installer.runSteps env a i pre).2.1 ++
        [Event.logNewline, Event.callBeforeEach s.stepId],
       Except.error e) := by
  have hstep := runStep_beforeEach_error env a i s fB e hB hfB
  have hhead := runSteps_head_error env a i s post _ e hstep
  have happ := runSteps_append_each_ok env a i pre (s :: post) hPre
  rw [hhead] at happ
  unfold Installer.run Installer.runMain
  simp only [Installer.displayFrontmatter, validateArgs_ok i a hv,
    preInstall_ok i hp, hsteps, happ]
  simp

theorem run_afterEach_error (env : ExecEnv A E) (i : Installer A E) (a : A)
    (pre : List Step) (s : Step) (post : List Step)
    (fA : StepId → Except E Unit) (e : E)
    (hsteps : i.steps = pre ++ s :: post)
    (hv : hookOk i.options.validateArgs) (hp : hookOk i.options.preInstall)
    (hb : hookOk i.options.beforeEach)
    (hPre : ∀ s2 ∈ pre, (Installer.runStep env a i s2).2.2 = Except.ok ())
    (hd : (dispatchStep env a i s).2.2 = Except.ok ())
    (hA : i.options.afterEach = some fA)
    (hfA : fA s.stepId = Except.error e) :
    Installer.run env i a =
      (i, (Installer.displayFrontmatter i).2 ++ validateEvts i a ++ preEvts i ++
        (Installer.runSteps env a i pre).2.1 ++
        (Event.logNewline :: (beforeEvts i s.stepId ++
          Event.logStepFrontmatter s ::
            (execEvts a s ++ [Event.callAfterEach s.stepId]))),
       Except.error e) := by
  have hstep := runStep_afterEach_error env a i s fA e hb hd hA hfA
  have hhead := runSteps_head_error env a i s post _ e hstep
  have happ := runSteps_append_each_ok env a i pre (s :: post) hPre
  rw [hhead] at happ
  unfold Installer.run Installer.runMain
  simp only [Installer.displayFrontmatter, validateArgs_ok i a hv,
    preInstall_ok i hp, hsteps, happ]
  simp

end RunErrorLemmas

section Claims

variable {A E : Type}

/-- C1: if the validateArgs hook is present and rejects, `run` logs the
error exactly once, returns normally (no exception escapes `run`), and
preInstall, beforeEach, afterEach, every executor, and postInstall are
never invoked. -/
theorem validateArgs_reject_stops_run (env : ExecEnv A E) (i : Installer A E)
    (a : A) (f : A → Except E Unit) (e : E)
    (hf : i.options.validateArgs = some f) (he : f a = Except.error e) :
    (Installer.run env i a).2.2 = Except.ok () ∧
    (Installer.run env i a).2.1.countP isLogErrorEv = 1 ∧
    (Installer.run env i a).2.1.countP isLifecycleCallEv = 0 := by
  have h := run_validate_error env i a f e hf he
  rw [h]
  refine ⟨rfl, ?_, ?_⟩ <;>
    simp [Installer.displayFrontmatter, isLogErrorEv, isLifecycleCallEv,
      List.countP_append, List.countP_cons]

/-- Witness for C1 at a concrete installer whose validateArgs rejects. -/
theorem validateArgs_reject_stops_run_witness :
    (Installer.run env0 instValFail 0).2.2 = Except.ok () ∧
    (Installer.run env0 instValFail 0).2.1.countP isLogErrorEv = 1 ∧
    (Installer.run env0 instValFail 0).2.1.countP isLifecycleCallEv = 0 :=
  validateArgs_reject_stops_run env0 instValFail 0
    (fun _ => Except.error 5) 5 rfl rfl

/-- C4: dispatch tests each step against the three predicates in the fixed
order file-transform, add-dependency, new-file and invokes exactly the
first matching executor with the step and the CLI args; on a miss no
executor is invoked and no error is raised. -/
theorem dispatch_first_match (env : ExecEnv A E) (a : A) (i : Installer A E)
    (s : Step) :
    (dispatchStep env a i s).2.1 =
      ((specFirstMatch s).map fun k => Event.callExecutor k s a).toList ∧
    (specFirstMatch s = none →
      dispatchStep env a i s = (i, [], Except.ok ())) := by
  constructor
  · rw [dispatchStep_trace env a i s]
    unfold execEvts
    cases specFirstMatch s <;> rfl
  · intro hnone
    unfold specFirstMatch at hnone
    by_cases c1 : isFileTransformExecutor s = true
    · rw [if_pos c1] at hnone; cases hnone
    · by_cases c2 : isAddDependencyExecutor s = true
      · rw [if_neg c1, if_pos c2] at hnone; cases hnone
      · by_cases c3 : isNewFileExecutor s = true
        · rw [if_neg c1, if_neg c2, if_pos c3] at hnone; cases hnone
        · unfold dispatchStep
          rw [if_neg c1, if_neg c2, if_neg c3]

/-- Witness for C4 at a dispatch miss. -/
theorem dispatch_first_match_witness :
    ((dispatchStep env0 0 instMiss stepMiss).2.1 =
      ((specFirstMatch stepMiss).map fun k =>
        Event.callExecutor k stepMiss 0).toList) ∧
    dispatchStep env0 0 instMiss stepMiss = (instMiss, [], Except.ok ()) :=
  ⟨(dispatch_first_match env0 0 instMiss stepMiss).1,
   (dispatch_first_match env0 0 instMiss stepMiss).2 rfl⟩

/-- C5: an absent lifecycle hook is a no-op at its invocation point and
never causes a failure; with validateArgs absent, run proceeds past the
validation phase unconditionally into the rest of the lifecycle. -/
theorem absent_hooks_noop (env : ExecEnv A E) (i : Installer A E) (a : A)
    (id : StepId) :
    (i.options.validateArgs = none → i.validateArgs a = (i, [], Except.ok ())) ∧
    (i.options.preInstall = none → i.preInstall = (i, [], Except.ok ())) ∧
    (i.options.beforeEach = none → i.beforeEach id = (i, [], Except.ok ())) ∧
    (i.options.afterEach = none → i.afterEach id = (i, [], Except.ok ())) ∧
    (i.options.postInstall = none → i.postInstall = (i, [], Except.ok ())) ∧
    (i.options.validateArgs = none →
      Installer.run env i a =
        ((Installer.runMain env i a).1,
         (Installer.displayFrontmatter i).2 ++ (Installer.runMain env i a).2.1,
         (Installer.runMain env i a).2.2)) := by
  refine ⟨?_, ?_, ?_, ?_, ?_, ?_⟩
  · intro h; unfold Installer.validateArgs; rw [h]
  · intro h; unfold Installer.preInstall; rw [h]
  · intro h; unfold Installer.beforeEach; rw [h]
  · intro h; unfold Installer.afterEach; rw [h]
  · intro h; unfold Installer.postInstall; rw [h]
  · intro h
    have hV : i.validateArgs a = (i, [], Except.ok ()) := by
      unfold Installer.validateArgs; rw [h]
    unfold Installer.run
    rcases hM : Installer.runMain env i a with ⟨i2, t2, r2⟩
    simp only [Installer.displayFrontmatter, hV, hM]
    simp

/-- Witness for C5 at an installer with no optional hooks. -/
theorem absent_hooks_noop_witness :
    Installer.validateArgs instNone 0 = (instNone, [], Except.ok ()) ∧
    Installer.preInstall instNone = (instNone, [], Except.ok ()) ∧
    Installer.run env0 instNone 0 =
      ((Installer.runMain env0 instNone 0).1,
       (Installer.displayFrontmatter instNone).2 ++
         (Installer.runMain env0 instNone 0).2.1,
       (Installer.runMain env0 instNone 0).2.2) :=
  ⟨(absent_hooks_noop env0 instNone 0 (StepId.num 0)).1 rfl,
   (absent_hooks_noop env0 instNone 0 (StepId.num 0)).2.1 rfl,
   (absent_hooks_noop env0 instNone 0 (StepId.num 0)).2.2.2.2.2 rfl⟩

/-- C7: the frontmatter phase emits, in order, the branded welcome line
with the package name, the branded description line, the info line naming
the owner, and the info line with the repo link, then blocks on the
confirmation prompt; and in run this whole block is a prefix of the trace,
before any hook or step event. -/
theorem frontmatter_order (env : ExecEnv A E) (i : Installer A E) (a : A) :
    (Installer.displayFrontmatter i).2 =
      [Event.logBranded ("Welcome to the installer for " ++ i.options.packageName),
       Event.logBranded i.options.packageDescription,
       Event.logInfo ("This package is authored and supported by " ++ i.options.packageOwner),
       Event.logInfo ("For additional documentation and support please visit " ++ i.options.packageRepoLink),
       Event.logNewline,
       Event.waitForConfirmation "Press enter to begin installation"] ∧
    ∃ rest, (Installer.run env i a).2.1 =
      (Installer.displayFrontmatter i).2 ++ rest := by
  refine ⟨rfl, ?_⟩
  unfold Installer.run
  rcases hV : i.validateArgs a with ⟨i1, t1, r⟩
  cases r with
  | error e =>
    refine ⟨t1 ++ [Event.logError e], ?_⟩
    simp only [Installer.displayFrontmatter, hV]
    simp
  | ok u =>
    rcases hM : Installer.runMain env i1 a with ⟨i2, t2, r2⟩
    refine ⟨t1 ++ t2, ?_⟩
    simp only [Installer.displayFrontmatter, hV, hM]
    simp

/-- C8: run leaves the installer unchanged - the post-state equals the
constructed installer, so the steps sequence (contents and order) and the
options record are never mutated. -/
theorem run_no_mutation (env : ExecEnv A E) (i : Installer A E) (a : A) :
    (Installer.run env i a).1 = i ∧
    ((Installer.run env i a).1).steps = i.steps ∧
    ((Installer.run env i a).1).options = i.options := by
  have h := run_state env i a
  exact ⟨h, by rw [h], by rw [h]⟩

end Claims

section MoreLemmas

variable {A E : Type}

theorem dispatchStep_none (env : ExecEnv A E) (a : A) (i : Installer A E)
    (s : Step) (hmiss : specFirstMatch s = none) :
    dispatchStep env a i s = (i, [], Except.ok ()) := by
  unfold specFirstMatch at hmiss
  unfold dispatchStep
  by_cases c1 : isFileTransformExecutor s = true
  · rw [if_pos c1] at hmiss; cases hmiss
  · by_cases c2 : isAddDependencyExecutor s = true
    · rw [if_neg c1, if_pos c2] at hmiss; cases hmiss
    · by_cases c3 : isNewFileExecutor s = true
      · rw [if_neg c1, if_neg c2, if_pos c3] at hmiss; cases hmiss
      · rw [if_neg c1, if_neg c2, if_neg c3]

end MoreLemmas

section ClaimsTwo

variable {A E : Type}

/-- C2: when run completes with every hook and executor succeeding and the
beforeEach and afterEach hooks present, the two hooks are invoked exactly
once per step with that step's stepId, in step order, with each step's
afterEach falling between its beforeEach and the next step's beforeEach
(the hook-invocation subsequence of the trace is exactly the per-step
before/after pairs in steps order). -/
theorem run_beforeAfter_pairs (env : ExecEnv A E) (i : Installer A E) (a : A)
    (fB fA : StepId → Except E Unit)
    (hB : i.options.beforeEach = some fB) (hA : i.options.afterEach = some fA)
    (hfB : ∀ id, fB id = Except.ok ()) (hfA : ∀ id, fA id = Except.ok ())
    (hv : hookOk i.options.validateArgs) (hp : hookOk i.options.preInstall)
    (hq : hookOk i.options.postInstall) (he : envOk env) :
    (Installer.run env i a).2.1.filter isHookPairEvent =
      (i.steps.map fun s =>
        [Event.callBeforeEach s.stepId, Event.callAfterEach s.stepId]).flatten := by
  have hb : hookOk i.options.beforeEach := fun f x hf => by
    rw [hB] at hf; cases hf; exact hfB x
  have ha : hookOk i.options.afterEach := fun f x hf => by
    rw [hA] at hf; cases hf; exact hfA x
  rw [run_allOk env i a hv hp hq hb ha he]
  simp only [List.filter_append, List.filter_flatten, List.map_map,
    Function.comp]
  simp only [filter_hookPair_frontmatter i, filter_hookPair_validateEvts i a,
    filter_hookPair_preEvts i, filter_hookPair_postEvts i,
    filter_hookPair_stepOkTrace i a fB fA hB hA]
  simp [Function.comp_def, filter_hookPair_stepOkTrace i a fB fA hB hA,
    isHookPairEvent]

/-- Witness for C2 at a two-step installer with all hooks present. -/
theorem run_beforeAfter_pairs_witness :
    (Installer.run env0 instPair 0).2.1.filter isHookPairEvent =
      (instPair.steps.map fun s =>
        [Event.callBeforeEach s.stepId, Event.callAfterEach s.stepId]).flatten :=
  run_beforeAfter_pairs env0 instPair 0
    (fun _ => Except.ok ()) (fun _ => Except.ok ()) rfl rfl
    (fun _ => rfl) (fun _ => rfl)
    (by intro f x hf; cases hf; rfl) (by intro f x hf; cases hf; rfl)
    (by intro f x hf; cases hf; rfl)
    ⟨fun _ _ => rfl, fun _ _ => rfl, fun _ _ => rfl⟩

/-- C6: with all hooks and executors succeeding, run's trace is exactly
the frontmatter-and-confirmation block, then the validateArgs invocation,
then preInstall, then for each step in order the blank line, beforeEach,
step frontmatter, dispatch, afterEach, then postInstall, then the blank
line and the success message naming the package; each phase's events
strictly precede the next phase's, and run returns normally. -/
theorem run_phase_order (env : ExecEnv A E) (i : Installer A E) (a : A)
    (hv : hookOk i.options.validateArgs) (hp : hookOk i.options.preInstall)
    (hq : hookOk i.options.postInstall) (hb : hookOk i.options.beforeEach)
    (ha : hookOk i.options.afterEach) (he : envOk env) :
    Installer.run env i a =
      (i, (Installer.displayFrontmatter i).2 ++ validateEvts i a ++ preEvts i ++
        (i.steps.map (stepOkTrace i a)).flatten ++ postEvts i ++
        [Event.logNewline, Event.logSuccess (successMsg i)],
       Except.ok ()) :=
  run_allOk env i a hv hp hq hb ha he

/-- Witness for C6 at a two-step installer with all hooks present. -/
theorem run_phase_order_witness :
    Installer.run env0 instPair 0 =
      (instPair, (Installer.displayFrontmatter instPair).2 ++
        validateEvts instPair 0 ++ preEvts instPair ++
        (instPair.steps.map (stepOkTrace instPair 0)).flatten ++
        postEvts instPair ++
        [Event.logNewline, Event.logSuccess (successMsg instPair)],
       Except.ok ()) :=
  run_phase_order env0 instPair 0
    (by intro f x hf; cases hf; rfl) (by intro f x hf; cases hf; rfl)
    (by intro f x hf; cases hf; rfl) (by intro f x hf; cases hf; rfl)
    (by intro f x hf; cases hf; rfl)
    ⟨fun _ _ => rfl, fun _ _ => rfl, fun _ _ => rfl⟩

/-- C9: on a dispatch miss the loop still invokes beforeEach with the
step's id, still renders the step frontmatter, still invokes afterEach,
and the iteration continues with the remaining steps; only the executor
invocation is skipped. -/
theorem dispatch_miss_still_runs_hooks (env : ExecEnv A E) (a : A)
    (i : Installer A E) (s : Step) (rest : List Step)
    (fB fA : StepId → Except E Unit)
    (hmiss : specFirstMatch s = none)
    (hB : i.options.beforeEach = some fB) (hfB : fB s.stepId = Except.ok ())
    (hA : i.options.afterEach = some fA) (hfA : fA s.stepId = Except.ok ()) :
    Installer.runStep env a i s =
      (i, [Event.logNewline, Event.callBeforeEach s.stepId,
           Event.logStepFrontmatter s, Event.callAfterEach s.stepId],
       Except.ok ()) ∧
    Installer.runSteps env a i (s :: rest) =
      ((Installer.runSteps env a i rest).1,
       [Event.logNewline, Event.callBeforeEach s.stepId,
        Event.logStepFrontmatter s, Event.callAfterEach s.stepId] ++
         (Installer.runSteps env a i rest).2.1,
       (Installer.runSteps env a i rest).2.2) := by
  have hBe : i.beforeEach s.stepId =
      (i, [Event.callBeforeEach s.stepId], Except.ok ()) := by
    unfold Installer.beforeEach; rw [hB]; simp [hfB]
  have hAf : i.afterEach s.stepId =
      (i, [Event.callAfterEach s.stepId], Except.ok ()) := by
    unfold Installer.afterEach; rw [hA]; simp [hfA]
  have hD := dispatchStep_none env a i s hmiss
  have h1 : Installer.runStep env a i s =
      (i, [Event.logNewline, Event.callBeforeEach s.stepId,
           Event.logStepFrontmatter s, Event.callAfterEach s.stepId],
       Except.ok ()) := by
    unfold Installer.runStep
    simp only [hBe, hD, hAf]
    simp
  refine ⟨h1, ?_⟩
  rcases hR : Installer.runSteps env a i rest with ⟨i2, t2, r2⟩
  simp only [hR]
  unfold Installer.runSteps
  simp only [h1, hR]

/-- Witness for C9 at an installer whose first step is a dispatch miss. -/
theorem dispatch_miss_still_runs_hooks_witness :
    Installer.runStep env0 0 instMiss stepMiss =
      (instMiss, [Event.logNewline, Event.callBeforeEach stepMiss.stepId,
        Event.logStepFrontmatter stepMiss, Event.callAfterEach stepMiss.stepId],
       Except.ok ()) ∧
    Installer.runSteps env0 0 instMiss (stepMiss :: [stepNF]) =
      ((Installer.runSteps env0 0 instMiss [stepNF]).1,
       [Event.logNewline, Event.callBeforeEach stepMiss.stepId,
        Event.logStepFrontmatter stepMiss, Event.callAfterEach stepMiss.stepId] ++
         (Installer.runSteps env0 0 instMiss [stepNF]).2.1,
       (Installer.runSteps env0 0 instMiss [stepNF]).2.2) :=
  dispatch_miss_still_runs_hooks env0 0 instMiss stepMiss [stepNF]
    (fun _ => Except.ok ()) (fun _ => Except.ok ()) rfl rfl rfl rfl rfl

/-- C10: with an empty steps list run still displays the frontmatter and
waits for confirmation, invokes the present validateArgs, preInstall and
postInstall hooks, makes zero beforeEach, afterEach or executor
invocations, and emits the success message. -/
theorem run_empty_steps (env : ExecEnv A E) (i : Installer A E) (a : A)
    (fv : A → Except E Unit) (fp fq : Unit → Except E Unit)
    (hsteps : i.steps = [])
    (hv : i.options.validateArgs = some fv) (hfv : fv a = Except.ok ())
    (hp : i.options.preInstall = some fp) (hfp : fp () = Except.ok ())
    (hq : i.options.postInstall = some fq) (hfq : fq () = Except.ok ()) :
    Installer.run env i a =
      (i, (Installer.displayFrontmatter i).2 ++
        [Event.callValidateArgs a, Event.callPreInstall, Event.callPostInstall,
         Event.logNewline, Event.logSuccess (successMsg i)],
       Except.ok ()) ∧
    (Installer.run env i a).2.1.countP isHookPairEvent = 0 ∧
    (∀ k s a2, Event.callExecutor k s a2 ∉ (Installer.run env i a).2.1) := by
  have hV : i.validateArgs a = (i, [Event.callValidateArgs a], Except.ok ()) := by
    unfold Installer.validateArgs; rw [hv]; simp [hfv]
  have hP : i.preInstall = (i, [Event.callPreInstall], Except.ok ()) := by
    unfold Installer.preInstall; rw [hp]; simp [hfp]
  have hQ : i.postInstall = (i, [Event.callPostInstall], Except.ok ()) := by
    unfold Installer.postInstall; rw [hq]; simp [hfq]
  have hrun : Installer.run env i a =
      (i, (Installer.displayFrontmatter i).2 ++
        [Event.callValidateArgs a, Event.callPreInstall, Event.callPostInstall,
         Event.logNewline, Event.logSuccess (successMsg i)],
       Except.ok ()) := by
    unfold Installer.run Installer.runMain
    simp only [Installer.displayFrontmatter, hV, hP, hsteps, hQ]
    simp [Installer.runSteps, hQ]
  refine ⟨hrun, ?_, ?_⟩
  · rw [hrun]
    simp [Installer.displayFrontmatter, isHookPairEvent, List.countP_append,
      List.countP_cons]
  · intro k s a2
    rw [hrun]
    simp [Installer.displayFrontmatter]

/-- Witness for C10 at an installer with all hooks present and no steps. -/
theorem run_empty_steps_witness :
    Installer.run env0 instEmpty 0 =
      (instEmpty, (Installer.displayFrontmatter instEmpty).2 ++
        [Event.callValidateArgs 0, Event.callPreInstall, Event.callPostInstall,
         Event.logNewline, Event.logSuccess (successMsg instEmpty)],
       Except.ok ()) ∧
    (Installer.run env0 instEmpty 0).2.1.countP isHookPairEvent = 0 ∧
    (∀ k s a2, Event.callExecutor k s a2 ∉ (Installer.run env0 instEmpty 0).2.1) :=
  run_empty_steps env0 instEmpty 0
    (fun _ => Except.ok ()) (fun _ => Except.ok ()) (fun _ => Except.ok ())
    rfl rfl rfl rfl rfl rfl rfl

/-- C3: errors raised by preInstall, beforeEach, afterEach, postInstall, or
any executor are not caught by run - the error propagates out of run - and
when the executor or a per-step hook of a step fails, the hooks and
executors of the later steps and postInstall are never invoked and the
success message is never emitted. -/
theorem run_error_propagation (env : ExecEnv A E) (i : Installer A E) (a : A) :
    (∀ f e, hookOk i.options.validateArgs → i.options.preInstall = some f →
      f () = Except.error e →
      Installer.run env i a =
        (i, (Installer.displayFrontmatter i).2 ++ validateEvts i a ++
          [Event.callPreInstall], Except.error e)) ∧
    (∀ f e, hookOk i.options.validateArgs → hookOk i.options.preInstall →
      hookOk i.options.beforeEach → hookOk i.options.afterEach → envOk env →
      i.options.postInstall = some f → f () = Except.error e →
      Installer.run env i a =
        (i, (Installer.displayFrontmatter i).2 ++ validateEvts i a ++ preEvts i ++
          (i.steps.map (stepOkTrace i a)).flatten ++ [Event.callPostInstall],
         Except.error e)) ∧
    (∀ pre s post e, i.steps = pre ++ s :: post →
      hookOk i.options.validateArgs → hookOk i.options.preInstall →
      hookOk i.options.beforeEach →
      (∀ s2 ∈ pre, (Installer.runStep env a i s2).2.2 = Except.ok ()) →
      (dispatchStep env a i s).2.2 = Except.error e →
      Installer.run env i a =
        (i, (Installer.displayFrontmatter i).2 ++ validateEvts i a ++ preEvts i ++
          (Installer.runSteps env a i pre).2.1 ++
          (Event.logNewline :: (beforeEvts i s.stepId ++
            Event.logStepFrontmatter s :: execEvts a s)),
         Except.error e) ∧
      Event.callPostInstall ∉ (Installer.run env i a).2.1 ∧
      Event.logSuccess (successMsg i) ∉ (Installer.run env i a).2.1) ∧
    (∀ pre s post fB e, i.steps = pre ++ s :: post →
      hookOk i.options.validateArgs → hookOk i.options.preInstall →
      (∀ s2 ∈ pre, (Installer.runStep env a i s2).2.2 = Except.ok ()) →
      i.options.beforeEach = some fB → fB s.stepId = Except.error e →
      Installer.run env i a =
        (i, (Installer.displayFrontmatter i).2 ++ validateEvts i a ++ preEvts i ++
          (Installer.runSteps env a i pre).2.1 ++
          [Event.logNewline, Event.callBeforeEach s.stepId],
         Except.error e) ∧
      Event.callPostInstall ∉ (Installer.run env i a).2.1 ∧
      Event.logSuccess (successMsg i) ∉ (Installer.run env i a).2.1) ∧
    (∀ pre s post fA e, i.steps = pre ++ s :: post →
      hookOk i.options.validateArgs → hookOk i.options.preInstall →
      hookOk i.options.beforeEach →
      (∀ s2 ∈ pre, (Installer.runStep env a i s2).2.2 = Except.ok ()) →
      (dispatchStep env a i s).2.2 = Except.ok () →
      i.options.afterEach = some fA → fA s.stepId = Except.error e →
      Installer.run env i a =
        (i, (Installer.displayFrontmatter i).2 ++ validateEvts i a ++ preEvts i ++
          (Installer.runSteps env a i pre).2.1 ++
          (Event.logNewline :: (beforeEvts i s.stepId ++
            Event.logStepFrontmatter s ::
              (execEvts a s ++ [Event.callAfterEach s.stepId]))),
         Except.error e) ∧
      Event.callPostInstall ∉ (Installer.run env i a).2.1 ∧
      Event.logSuccess (successMsg i) ∉ (Installer.run env i a).2.1) := by
  refine ⟨?_, ?_, ?_, ?_, ?_⟩
  · intro f e hv hf hfe
    exact run_preInstall_error env i a f e hv hf hfe
  · intro f e hv hp hb ha he hf hfe
    exact run_postInstall_error env i a f e hv hp hb ha he hf hfe
  · intro pre s post e hsteps hv hp hb hPre hd
    have hEq := run_exec_error env i a pre s post e hsteps hv hp hb hPre hd
    refine ⟨hEq, ?_, ?_⟩
    · rw [hEq]
      have nPre : Event.callPostInstall ∉ (Installer.runSteps env a i pre).2.1 :=
        runSteps_notMem env a _ (by simp) (by simp) (by simp) (by simp)
          (by simp) pre i
      have nV : Event.callPostInstall ∉ validateEvts i a :=
        notMem_validateEvts i a _ (by simp)
      have nP : Event.callPostInstall ∉ preEvts i :=
        notMem_preEvts i _ (by simp)
      have nB : Event.callPostInstall ∉ beforeEvts i s.stepId :=
        notMem_beforeEvts i s.stepId _ (by simp)
      have nX : Event.callPostInstall ∉ (execEvts a s : List (Event A E)) :=
        notMem_execEvts a s _ (by simp)
      simp [Installer.displayFrontmatter, nPre, nV, nP, nB, nX]
    · rw [hEq]
      have nPre : Event.logSuccess (successMsg i) ∉
          (Installer.runSteps env a i pre).2.1 :=
        runSteps_notMem env a _ (by simp) (by simp) (by simp) (by simp)
          (by simp) pre i
      have nV : Event.logSuccess (successMsg i) ∉ validateEvts i a :=
        notMem_validateEvts i a _ (by simp)
      have nP : Event.logSuccess (successMsg i) ∉ preEvts i :=
        notMem_preEvts i _ (by simp)
      have nB : Event.logSuccess (successMsg i) ∉ beforeEvts i s.stepId :=
        notMem_beforeEvts i s.stepId _ (by simp)
      have nX : Event.logSuccess (successMsg i) ∉ (execEvts a s : List (Event A E)) :=
        notMem_execEvts a s _ (by simp)
      simp [Installer.displayFrontmatter, nPre, nV, nP, nB, nX]
  · intro pre s post fB e hsteps hv hp hPre hB hfB
    have hEq := run_beforeEach_error env i a pre s post fB e hsteps hv hp hPre hB hfB
    refine ⟨hEq, ?_, ?_⟩
    · rw [hEq]
      have nPre : Event.callPostInstall ∉ (Installer.runSteps env a i pre).2.1 :=
        runSteps_notMem env a _ (by simp) (by simp) (by simp) (by simp)
          (by simp) pre i
      have nV : Event.callPostInstall ∉ validateEvts i a :=
        notMem_validateEvts i a _ (by simp)
      have nP : Event.callPostInstall ∉ preEvts i :=
        notMem_preEvts i _ (by simp)
      simp [Installer.displayFrontmatter, nPre, nV, nP]
    · rw [hEq]
      have nPre : Event.logSuccess (successMsg i) ∉
          (Installer.runSteps env a i pre).2.1 :=
        runSteps_notMem env a _ (by simp) (by simp) (by simp) (by simp)
          (by simp) pre i
      have nV : Event.logSuccess (successMsg i) ∉ validateEvts i a :=
        notMem_validateEvts i a _ (by simp)
      have nP : Event.logSuccess (successMsg i) ∉ preEvts i :=
        notMem_preEvts i _ (by simp)
      simp [Installer.displayFrontmatter, nPre, nV, nP]
  · intro pre s post fA e hsteps hv hp hb hPre hd hA hfA
    have hEq := run_afterEach_error env i a pre s post fA e hsteps hv hp hb
      hPre hd hA hfA
    refine ⟨hEq, ?_, ?_⟩
    · rw [hEq]
      have nPre : Event.callPostInstall ∉ (Installer.runSteps env a i pre).2.1 :=
        runSteps_notMem env a _ (by simp) (by simp) (by simp) (by simp)
          (by simp) pre i
      have nV : Event.callPostInstall ∉ validateEvts i a :=
        notMem_validateEvts i a _ (by simp)
      have nP : Event.callPostInstall ∉ preEvts i :=
        notMem_preEvts i _ (by simp)
      have nB : Event.callPostInstall ∉ beforeEvts i s.stepId :=
        notMem_beforeEvts i s.stepId _ (by simp)
      have nX : Event.callPostInstall ∉ (execEvts a s : List (Event A E)) :=
        notMem_execEvts a s _ (by simp)
      simp [Installer.displayFrontmatter, nPre, nV, nP, nB, nX]
    · rw [hEq]
      have nPre : Event.logSuccess (successMsg i) ∉
          (Installer.runSteps env a i pre).2.1 :=
        runSteps_notMem env a _ (by simp) (by simp) (by simp) (by simp)
          (by simp) pre i
      have nV : Event.logSuccess (successMsg i) ∉ validateEvts i a :=
        notMem_validateEvts i a _ (by simp)
      have nP : Event.logSuccess (successMsg i) ∉ preEvts i :=
        notMem_preEvts i _ (by simp)
      have nB : Event.logSuccess (successMsg i) ∉ beforeEvts i s.stepId :=
        notMem_beforeEvts i s.stepId _ (by simp)
      have nX : Event.logSuccess (successMsg i) ∉ (execEvts a s : List (Event A E)) :=
        notMem_execEvts a s _ (by simp)
      simp [Installer.displayFrontmatter, nPre, nV, nP, nB, nX]

/-- Witness for C3: a concrete installer whose first executor rejects, and
one whose beforeEach hook rejects on the first step. -/
theorem run_error_propagation_witness :
    (Installer.run envFail instPair 0 =
      (instPair, (Installer.displayFrontmatter instPair).2 ++
        validateEvts instPair 0 ++ preEvts instPair ++
        (Installer.runSteps envFail 0 instPair []).2.1 ++
        (Event.logNewline :: (beforeEvts instPair stepFT.stepId ++
          Event.logStepFrontmatter stepFT :: execEvts 0 stepFT)),
       Except.error 7) ∧
     Event.callPostInstall ∉ (Installer.run envFail instPair 0).2.1 ∧
     Event.logSuccess (successMsg instPair) ∉
       (Installer.run envFail instPair 0).2.1) ∧
    (Installer.run env0 instBeforeFail 0 =
      (instBeforeFail, (Installer.displayFrontmatter instBeforeFail).2 ++
        validateEvts instBeforeFail 0 ++ preEvts instBeforeFail ++
        (Installer.runSteps env0 0 instBeforeFail []).2.1 ++
        [Event.logNewline, Event.callBeforeEach stepFT.stepId],
       Except.error 9) ∧
     Event.callPostInstall ∉ (Installer.run env0 instBeforeFail 0).2.1 ∧
     Event.logSuccess (successMsg instBeforeFail) ∉
       (Installer.run env0 instBeforeFail 0).2.1) :=
  ⟨(run_error_propagation envFail instPair 0).2.2.1 [] stepFT [stepNF] 7 rfl
     (by intro f x hf; cases hf; rfl) (by intro f x hf; cases hf; rfl)
     (by intro f x hf; cases hf; rfl) (by simp) rfl,
   (run_error_propagation env0 instBeforeFail 0).2.2.2.1 [] stepFT [stepNF]
     (fun _ => Except.error 9) 9 rfl
     (by intro f x hf; cases hf; rfl) (by intro f x hf; cases hf; rfl)
     (by simp) rfl rfl⟩

end ClaimsTwo
